import Mathlib

/-!
Shallow embedding of the CSI bare-metal controller
(pkg/controller/controller.go): the data model (Volume and
AvailableCapacity records kept in a keyed object store), the capacity
scheduler (searchAvailableCapacity / acNodeMapping), the synchronous part
of CreateVolume, the background task createLocalVolume, the status writer
changeVolumeStatus, and DeleteVolume.  Stateful code is modelled by
explicit state passing over a Store value; fallible store and agent calls
are modelled by explicit fault parameters; the Go int64 sizes are modelled
as Int with the math.MaxInt64 sentinel written out explicitly; a Go panic
is modelled by an Option-valued result (none = panic).
-/

/-- Modelled from the spec: the generated protobuf enum
api.OperationalStatus and its name table api.OperationalStatus_name are in
the generated api package, which is not part of the provided sources; the
spec lists the states Creating, Created, FailedToCreate, Removing,
Removed, and `text(status)` as the textual mirror. -/
inductive OperationalStatus
  | Creating
  | Created
  | FailedToCreate
  | Removing
  | Removed
deriving DecidableEq, Repr

/-- Modelled from the spec: the textual name of a status value, as in the
generated api.OperationalStatus_name map. -/
def statusName : OperationalStatus → String
  | .Creating => "Creating"
  | .Created => "Created"
  | .FailedToCreate => "FailedToCreate"
  | .Removing => "Removing"
  | .Removed => "Removed"

/-- gRPC status codes used by the controller. -/
inductive RpcCode
  | InvalidArgument
  | Aborted
  | ResourceExhausted
  | Internal
  | Unimplemented
deriving DecidableEq, Repr

/-- An error returned by an RPC handler: either a gRPC status error built
via status.Error / status.Errorf, or a plain Go error (fmt.Errorf) that
carries no gRPC code. -/
inductive RpcError
  | status (code : RpcCode) (msg : String)
  | plain (msg : String)
deriving DecidableEq, Repr

/-- Whether an RPC handler result is an error carrying the given gRPC
status code. -/
def errHasCode : Except RpcError Unit → RpcCode → Bool
  | .error (.status c _), cw => c == cw
  | _, _ => false

/-- Spec of an AvailableCapacity record (api.AvailableCapacity). -/
structure ACSpec where
  nodeId : String
  location : String
  size : Int
  sc : String
deriving DecidableEq, Repr

/-- An AvailableCapacity CR: metadata name plus spec
(accrd.AvailableCapacity). -/
structure ACRecord where
  name : String
  spec : ACSpec
deriving DecidableEq, Repr

/-- Spec of a Volume record (api.Volume). -/
structure VolumeSpec where
  id : String
  owner : String
  size : Int
  location : String
  status : OperationalStatus
deriving DecidableEq, Repr

/-- A Volume CR: metadata name, metadata annotation map (as an
association list), and spec (volumecrd.Volume). -/
structure VolumeCR where
  name : String
  anns : List (String × String)
  spec : VolumeSpec
deriving DecidableEq, Repr

/-- The object store: Volume CRs and AvailableCapacity CRs in one
namespace, keyed by metadata name. -/
structure Store where
  volumes : List VolumeCR
  acs : List ACRecord
deriving DecidableEq, Repr

/-- Store operations performed by a handler, in order. -/
inductive StoreOp
  | readVol (name : String)
  | listAC
  | createVol (name : String)
  | delAC (name : String)
  | delVol (name : String)
  | createAC (name : String)
  | updateVol (name : String)
deriving DecidableEq, Repr

/-- NodeIDTopologyKey = "baremetal-csi/nodeid". -/
def nodeIDTopologyKey : String := "baremetal-csi/nodeid"

/-- VolumeStatusAnnotationKey = "dell.emc.csi/volume-status". -/
def statusAnnKey : String := "dell.emc.csi/volume-status"

/-- CreateLocalVolumeRequestTimeout = 300 * time.Second, in seconds. -/
def createLocalVolumeRequestTimeoutSec : Nat := 300

/-- math.MaxInt64, the sentinel initial value of allocatedCapacity in
searchAvailableCapacity. -/
def maxInt64 : Int := 9223372036854775807

/-- Look up a key in a Go-map modelled as an association list. -/
def lookupStr (m : List (String × String)) (k : String) : Option String :=
  (m.find? (fun p => p.1 == k)).map (fun p => p.2)

/-- strings.ToLower, modelled as a per-character lowercase map (the Go
code only ever lowercases disk location identifiers). -/
def lowerStr (s : String) : String := ⟨s.data.map Char.toLower⟩

/-- Go map assignment m[k] = v. -/
def setAnn (m : List (String × String)) (k v : String) : List (String × String) :=
  (k, v) :: m.filter (fun p => p.1 != k)

/-- c.ReadCR for a Volume: Get by metadata name. -/
def findVolume (s : Store) (n : String) : Option VolumeCR :=
  s.volumes.find? (fun v => v.name == n)

/-- k8s Delete of a Volume CR: remove the record with the given name. -/
def removeVol : List VolumeCR → String → List VolumeCR
  | [], _ => []
  | v :: vs, n => if v.name == n then vs else v :: removeVol vs n

/-- k8s Delete of an AvailableCapacity CR: remove the record with the
given name. -/
def removeAC : List ACRecord → String → List ACRecord
  | [], _ => []
  | a :: as, n => if a.name == n then as else a :: removeAC as n

/-- k8s Update of a Volume CR: replace the record with the same name. -/
def replaceVol : List VolumeCR → String → VolumeCR → List VolumeCR
  | [], _, _ => []
  | x :: xs, n, v => if x.name == n then v :: xs else x :: replaceVol xs n v

/-- c.CreateCR for an AvailableCapacity: Get first and treat an existing
record as success (no write); otherwise Create. -/
def createCRAC (acs : List ACRecord) (cr : ACRecord) : List ACRecord :=
  if acs.any (fun a => a.name == cr.name) then acs else acs ++ [cr]

/-- One topology entry of the accessibility requirements: its Segments
map. -/
structure TopoSegment where
  segs : List (String × String)
deriving DecidableEq, Repr

/-- req.GetAccessibilityRequirements(): the Preferred list. -/
structure TopoRequirement where
  preferred : List TopoSegment
deriving DecidableEq, Repr

/-- A csi.CreateVolumeRequest, restricted to the fields the controller
reads: Name, CapacityRange.RequiredBytes, whether VolumeCapabilities is
non-nil, and the optional AccessibilityRequirements. -/
structure CreateVolumeRequest where
  name : String
  requiredBytes : Int
  hasCaps : Bool
  accReq : Option TopoRequirement
deriving DecidableEq, Repr

/-- A csi.DeleteVolumeRequest. -/
structure DeleteVolumeRequest where
  volumeId : String
deriving DecidableEq, Repr

/-- Extraction of the preferred node in CreateVolume:
req.GetAccessibilityRequirements().Preferred[0].Segments[NodeIDTopologyKey].
When requirements are present but Preferred is empty the Go code indexes
out of range and panics: modelled as none.  A missing Segments key yields
the Go zero value "". -/
def preferredNodeOf (r : CreateVolumeRequest) : Option String :=
  match r.accReq with
  | none => some ""
  | some t =>
    match t.preferred with
    | [] => none
    | seg :: _ => some ((lookupStr seg.segs nodeIDTopologyKey).getD "")

/-- The loop state of searchAvailableCapacity: allocatedCapacity starts at
math.MaxInt64, foundAC at nil. -/
structure SearchState where
  allocatedCapacity : Int
  foundAC : Option ACRecord
deriving DecidableEq, Repr

/-- One iteration of the best-fit loop of searchAvailableCapacity:
if ac.Spec.Size < allocatedCapacity && ac.Spec.Size >= requiredBytes then
remember ac. -/
def searchStep (requiredBytes : Int) (st : SearchState) (ac : ACRecord) : SearchState :=
  if ac.spec.size < st.allocatedCapacity ∧ ac.spec.size ≥ requiredBytes then
    { allocatedCapacity := ac.spec.size, foundAC := some ac }
  else st

/-- The best-fit loop of searchAvailableCapacity over the ACs of the
chosen node. -/
def searchOnNode (acs : List ACRecord) (requiredBytes : Int) : Option ACRecord :=
  (acs.foldl (searchStep requiredBytes) { allocatedCapacity := maxInt64, foundAC := none }).foundAC

/-- acNodeMapping restricted to one key: the ACs of the given node, in
input order. -/
def acsOnNode (items : List ACRecord) (node : String) : List ACRecord :=
  items.filter (fun a => a.spec.nodeId == node)

/-- The node ids occurring in the list, first occurrence first: the key
set of acNodeMapping.  Go map iteration order is not deterministic; this
deterministic order is one admissible schedule. -/
def distinctNodes (items : List ACRecord) : List String :=
  (items.map (fun a => a.spec.nodeId)).eraseDups

/-- When no preferred node was provided, pick the node with the most
AvailableCapacity entries (maxLen starts at 0, strict improvement
replaces). -/
def pickNode (items : List ACRecord) : String :=
  (distinctNodes items).foldl
    (fun best n =>
      if (acsOnNode items n).length > (acsOnNode items best).length then n else best)
    ""

/-- searchAvailableCapacity: ReadList of all AvailableCapacity CRs (a
failed list returns nil), group by node, choose the node, then best-fit
on that node. -/
def searchAvailableCapacity (listRes : Except Unit (List ACRecord))
    (preferredNode : String) (requiredBytes : Int) : Option ACRecord :=
  match listRes with
  | .error _ => none
  | .ok items =>
    let node := if preferredNode == "" then pickNode items else preferredNode
    searchOnNode (acsOnNode items node) requiredBytes

/-- Fault injection for the store calls made by CreateVolume. -/
structure CreateFaults where
  readVolErr : Bool
  listACErr : Bool
  createVolErr : Bool
  deleteACErr : Bool
deriving DecidableEq, Repr

/-- The fault-free environment for CreateVolume. -/
def noCreateFaults : CreateFaults :=
  { readVolErr := false, listACErr := false, createVolErr := false, deleteACErr := false }

/-- Outcome of the synchronous part of CreateVolume, before the status
wait. -/
inductive CreateOutcome
  | rpcErr (e : RpcError)
  | dispatched (ac : ACRecord)
  | existing (v : VolumeCR)
deriving DecidableEq, Repr

/-- The Volume CR constructed by CreateVolume: status Creating, owner and
location and size taken from the chosen AvailableCapacity, and the status
annotation set to the textual status. -/
def mkVolumeCR (reqName : String) (ac : ACRecord) : VolumeCR :=
  { name := reqName
  , anns := [(statusAnnKey, statusName .Creating)]
  , spec :=
    { id := reqName
    , owner := ac.spec.nodeId
    , size := ac.spec.size
    , location := ac.spec.location
    , status := .Creating } }

/-- The result of c.ReadList in searchAvailableCapacity under the given
faults. -/
def listACResult (s : Store) (f : CreateFaults) : Except Unit (List ACRecord) :=
  if f.listACErr then .error () else .ok s.acs

/-- The synchronous part of CreateVolume (controller.go lines 164-241):
validation, existence check, scheduling, Volume CR creation,
AvailableCapacity deletion, dispatch of the background task.  Returns
none when the Go code panics (empty Preferred list). -/
def createVolumeSync (req : CreateVolumeRequest) (s : Store) (f : CreateFaults) :
    Option (CreateOutcome × Store × List StoreOp) :=
  if req.name == "" then
    some (.rpcErr (.status .InvalidArgument "Volume name missing in request"), s, [])
  else if !req.hasCaps then
    some (.rpcErr (.status .InvalidArgument "Volume capabilities missing in request"), s, [])
  else if f.readVolErr then
    some (.rpcErr (.status .Aborted "unable to check volume existence"), s, [.readVol req.name])
  else
    match findVolume s req.name with
    | some v => some (.existing v, s, [.readVol req.name])
    | none =>
      match preferredNodeOf req with
      | none => none
      | some pn =>
        match searchAvailableCapacity (listACResult s f) pn req.requiredBytes with
        | none =>
          some (.rpcErr (.status .ResourceExhausted
                  ("there is no suitable drive for request " ++ req.name)),
                s, [.readVol req.name, .listAC])
        | some ac =>
          if f.createVolErr then
            some (.rpcErr (.status .Internal "unable to create volume CR"),
                  s, [.readVol req.name, .listAC, .createVol req.name])
          else
            let s1 : Store := { s with volumes := s.volumes ++ [mkVolumeCR req.name ac] }
            let evs := [StoreOp.readVol req.name, .listAC, .createVol req.name, .delAC ac.name]
            if f.deleteACErr then
              some (.dispatched ac, s1, evs)
            else
              some (.dispatched ac, { s1 with acs := removeAC s1.acs ac.name }, evs)

/-- The field mutation performed by changeVolumeStatus on the volume it
read: set Spec.Status and rewrite the status annotation to the textual
status. -/
def updateStatus (v : VolumeCR) (st : OperationalStatus) : VolumeCR :=
  { v with
    spec := { v.spec with status := st }
  , anns := setAnn v.anns statusAnnKey (statusName st) }

/-- changeVolumeStatus (controller.go lines 350-396), on the fault-free
store path: read the volume (a volume that never appears makes the final
Update fail and the function return an error), set the status and the
annotation, update. -/
def changeVolumeStatus (s : Store) (volumeID : String) (st : OperationalStatus) :
    Except String Store :=
  match findVolume s volumeID with
  | none => .error ("unable to persist status to " ++ statusName st ++ " for volume " ++ volumeID)
  | some v => .ok { s with volumes := replaceVol s.volumes volumeID (updateStatus v st) }

/-- The api.CreateLocalVolumeRequest sent to the node agent. -/
structure CLVRequest where
  pvcUUID : String
  capacity : Int
  sc : String
  location : String
deriving DecidableEq, Repr

/-- One agent call: the node whose communicator is used, the timeout the
context carries, and the request. -/
structure AgentCall where
  node : String
  timeoutSec : Nat
  request : CLVRequest
deriving DecidableEq, Repr

/-- The status chosen by createLocalVolume from the agent call outcome:
Created on success, FailedToCreate on error (a timeout surfaces as an
error). -/
def newStatusOf (agentRes : Except Unit Unit) : OperationalStatus :=
  match agentRes with
  | .error _ => .FailedToCreate
  | .ok _ => .Created

/-- createLocalVolume (controller.go lines 273-310): build the
CreateLocalVolumeRequest, call the owner node's agent under the fixed
timeout, translate the outcome into a status and persist it via
changeVolumeStatus. -/
def createLocalVolume (req : CreateVolumeRequest) (ac : ACRecord)
    (agentRes : Except Unit Unit) (s : Store) : AgentCall × Except String Store :=
  let clvReq : CLVRequest :=
    { pvcUUID := req.name
    , capacity := req.requiredBytes
    , sc := "hdd"
    , location := ac.spec.location }
  let node := ac.spec.nodeId
  ( { node := node, timeoutSec := createLocalVolumeRequestTimeoutSec, request := clvReq }
  , changeVolumeStatus s req.name (newStatusOf agentRes) )

/-- The volume metadata the agent returns from DeleteLocalVolume. -/
structure LocalVolume where
  size : Int
  location : String
deriving DecidableEq, Repr

/-- The api.DeleteLocalVolumeResponse. -/
structure DLVReply where
  ok : Bool
  volume : Option LocalVolume
deriving DecidableEq, Repr

/-- Fault injection for the store calls made by DeleteVolume. -/
structure DeleteFaults where
  readVolErr : Bool
  deleteVolErr : Bool
  createACErr : Bool
deriving DecidableEq, Repr

/-- The fault-free environment for DeleteVolume. -/
def noDeleteFaults : DeleteFaults :=
  { readVolErr := false, deleteVolErr := false, createACErr := false }

/-- DeleteVolume (controller.go lines 461-537): validate, read the Volume
(NotFound is success, any other read error returns a plain fmt.Errorf
error), call the owner's agent synchronously, delete the Volume CR, and
re-create an AvailableCapacity CR from the agent-returned size and
location under key node + "-" + lowercase(location) (best effort). -/
def deleteVolume (req : DeleteVolumeRequest) (s : Store) (f : DeleteFaults)
    (agent : Except Unit DLVReply) : Except RpcError Unit × Store × List StoreOp :=
  if req.volumeId == "" then
    (.error (.status .InvalidArgument "Volume ID must be provided"), s, [])
  else if f.readVolErr then
    (.error (.plain ("unable to find volume with ID " ++ req.volumeId)), s, [.readVol req.volumeId])
  else
    match findVolume s req.volumeId with
    | none => (.ok (), s, [.readVol req.volumeId])
    | some vol =>
      let node := vol.spec.owner
      match agent with
      | .error _ =>
        (.error (.status .Internal ("unable to delete volume on node " ++ node)),
         s, [.readVol req.volumeId])
      | .ok reply =>
        if !reply.ok then
          (.error (.status .Internal "response for delete local volume is not ok"),
           s, [.readVol req.volumeId])
        else
          match reply.volume with
          | none =>
            (.error (.status .Internal "Unable to delete volume from node"),
             s, [.readVol req.volumeId])
          | some lv =>
            if f.deleteVolErr then
              (.error (.status .Internal "can't delete volume CR"),
               s, [.readVol req.volumeId, .delVol req.volumeId])
            else
              let s1 : Store := { s with volumes := removeVol s.volumes req.volumeId }
              let acName := node ++ "-" ++ lowerStr lv.location
              let acSpec : ACSpec :=
                { nodeId := node, location := lv.location, size := lv.size, sc := "ANY" }
              let evs := [StoreOp.readVol req.volumeId, .delVol req.volumeId, .createAC acName]
              if f.createACErr then
                (.ok (), s1, evs)
              else
                (.ok (), { s1 with acs := createCRAC s1.acs { name := acName, spec := acSpec } }, evs)

/-- Invariant of the best-fit fold: either nothing satisfying has been
seen (and allocatedCapacity still holds the sentinel), or foundAC holds a
processed record of minimal satisfying size. -/
def SearchInv (required : Int) (processed : List ACRecord) (st : SearchState) : Prop :=
  (st.foundAC = none ∧ st.allocatedCapacity = maxInt64 ∧
     ∀ a ∈ processed, ¬ (required ≤ a.spec.size ∧ a.spec.size < maxInt64)) ∨
  (∃ a, st.foundAC = some a ∧ a ∈ processed ∧ required ≤ a.spec.size ∧
     st.allocatedCapacity = a.spec.size ∧
     ∀ b ∈ processed, required ≤ b.spec.size → a.spec.size ≤ b.spec.size)

/-- The empty store. -/
def emptyStore : Store := { volumes := [], acs := [] }

/-- A 100-byte AvailableCapacity on node n1, witness input. -/
def wAC1 : ACRecord :=
  { name := "n1-d1", spec := { nodeId := "n1", location := "d1", size := 100, sc := "ANY" } }

/-- A 60-byte AvailableCapacity on node n1, witness input. -/
def wAC2 : ACRecord :=
  { name := "n1-d2", spec := { nodeId := "n1", location := "d2", size := 60, sc := "ANY" } }

/-- Witness AvailableCapacity list. -/
def wAcs : List ACRecord := [wAC1, wAC2]

/-- An AvailableCapacity whose size is exactly math.MaxInt64. -/
def cexAC : ACRecord :=
  { name := "n1-dmax", spec := { nodeId := "n1", location := "dmax", size := maxInt64, sc := "ANY" } }

/-- Witness accessibility requirements preferring node n1. -/
def wTopo : TopoRequirement := { preferred := [{ segs := [(nodeIDTopologyKey, "n1")] }] }

/-- Witness CreateVolume request: name v1, 50 bytes, node n1 preferred. -/
def wReq : CreateVolumeRequest :=
  { name := "v1", requiredBytes := 50, hasCaps := true, accReq := some wTopo }

/-- Witness store: no volumes, two ACs on node n1. -/
def wStore : Store := { volumes := [], acs := wAcs }

/-- A request whose accessibility requirements are present but whose
Preferred list is empty. -/
def wPanicReq : CreateVolumeRequest :=
  { name := "v9", requiredBytes := 10, hasCaps := true, accReq := some { preferred := [] } }

/-- A request without accessibility requirements. -/
def wNoAccReq : CreateVolumeRequest :=
  { name := "v9", requiredBytes := 10, hasCaps := true, accReq := none }

/-- Witness store holding one volume created from wAC2. -/
def wVolStore : Store := { volumes := [mkVolumeCR "v1" wAC2], acs := [] }

/-- The AvailableCapacity CR that DeleteVolume reconstructs (controller.go
lines 521-531) when the agent reply carries the reserved disk's size and
location: key node + "-" + lowercase(location), storage class ANY. -/
def reclaimedAC (ac : ACRecord) : ACRecord :=
  { name := ac.spec.nodeId ++ "-" ++ lowerStr ac.spec.location
  , spec := { nodeId := ac.spec.nodeId, location := ac.spec.location
            , size := ac.spec.size, sc := "ANY" } }

/-- One step of the best-fit loop preserves the invariant. -/
theorem searchStep_inv (required : Int) (p : List ACRecord) (st : SearchState) (ac : ACRecord)
    (h : SearchInv required p st) :
    SearchInv required (p ++ [ac]) (searchStep required st ac) := by
  unfold searchStep
  rcases h with ⟨hnone, halloc, hall⟩ | ⟨a, hfa, hmem, hra, halloc, hmin⟩
  · by_cases hc : ac.spec.size < st.allocatedCapacity ∧ ac.spec.size ≥ required
    · rw [if_pos hc]
      right
      refine ⟨ac, rfl, List.mem_append_right _ (List.mem_singleton.mpr rfl), hc.2, rfl, ?_⟩
      intro b hb hrb
      rcases List.mem_append.mp hb with hb | hb
      · have hnb := hall b hb
        push_neg at hnb
        have hge := hnb hrb
        have hlt : ac.spec.size < maxInt64 := halloc ▸ hc.1
        exact le_trans (le_of_lt hlt) hge
      · rw [List.mem_singleton.mp hb]
    · rw [if_neg hc]
      left
      refine ⟨hnone, halloc, ?_⟩
      intro b hb
      rcases List.mem_append.mp hb with hb | hb
      · exact hall b hb
      · rw [List.mem_singleton.mp hb]
        rintro ⟨h1, h2⟩
        exact hc ⟨halloc ▸ h2, h1⟩
  · by_cases hc : ac.spec.size < st.allocatedCapacity ∧ ac.spec.size ≥ required
    · rw [if_pos hc]
      right
      refine ⟨ac, rfl, List.mem_append_right _ (List.mem_singleton.mpr rfl), hc.2, rfl, ?_⟩
      intro b hb hrb
      rcases List.mem_append.mp hb with hb | hb
      · have hab := hmin b hb hrb
        have hlt : ac.spec.size < a.spec.size := halloc ▸ hc.1
        exact le_trans (le_of_lt hlt) hab
      · rw [List.mem_singleton.mp hb]
    · rw [if_neg hc]
      right
      refine ⟨a, hfa, List.mem_append_left _ hmem, hra, halloc, ?_⟩
      intro b hb hrb
      rcases List.mem_append.mp hb with hb | hb
      · exact hmin b hb hrb
      · have hbeq := List.mem_singleton.mp hb
        rw [hbeq] at hrb
        have hnlt : ¬ ac.spec.size < st.allocatedCapacity := fun hlt => hc ⟨hlt, hrb⟩
        rw [hbeq]
        exact halloc ▸ not_lt.mp hnlt

/-- The best-fit fold preserves the invariant along any suffix. -/
theorem searchFold_inv (required : Int) :
    ∀ (l p : List ACRecord) (st : SearchState),
      SearchInv required p st →
      SearchInv required (p ++ l) (l.foldl (searchStep required) st)
  | [], p, st, h => by simpa using h
  | ac :: l, p, st, h => by
    have h1 := searchStep_inv required p st ac h
    have h2 := searchFold_inv required l (p ++ [ac]) (searchStep required st ac) h1
    simpa [List.append_assoc] using h2

/-- Characterization of the best-fit loop: a none result means no record
satisfies required ≤ size < MaxInt64, and a some result is a member of
minimal satisfying size. -/
theorem searchOnNode_spec (acs : List ACRecord) (required : Int) :
    (searchOnNode acs required = none →
       ∀ a ∈ acs, ¬ (required ≤ a.spec.size ∧ a.spec.size < maxInt64)) ∧
    (∀ a, searchOnNode acs required = some a →
       a ∈ acs ∧ required ≤ a.spec.size ∧
       ∀ b ∈ acs, required ≤ b.spec.size → a.spec.size ≤ b.spec.size) := by
  have hbase : SearchInv required []
      { allocatedCapacity := maxInt64, foundAC := none } :=
    Or.inl ⟨rfl, rfl, by simp⟩
  have hinv := searchFold_inv required acs [] _ hbase
  simp only [List.nil_append] at hinv
  unfold searchOnNode
  constructor
  · intro hnone
    rcases hinv with ⟨_, _, hall⟩ | ⟨a, hfa, _⟩
    · exact hall
    · rw [hfa] at hnone
      cases hnone
  · intro a ha
    rcases hinv with ⟨hn, _, _⟩ | ⟨b, hfb, hmem, hrb, _, hmin⟩
    · rw [hn] at ha
      cases ha
    · rw [hfb] at ha
      cases ha
      exact ⟨hmem, hrb, hmin⟩

/-- If some record on the list satisfies required ≤ size < MaxInt64, the
best-fit loop finds a minimal satisfying record. -/
theorem searchOnNode_found (acs : List ACRecord) (required : Int)
    (hex : ∃ a ∈ acs, required ≤ a.spec.size ∧ a.spec.size < maxInt64) :
    ∃ a, searchOnNode acs required = some a ∧ a ∈ acs ∧ required ≤ a.spec.size ∧
      ∀ b ∈ acs, required ≤ b.spec.size → a.spec.size ≤ b.spec.size := by
  cases hres : searchOnNode acs required with
  | none =>
    obtain ⟨a, hmem, hsat⟩ := hex
    exact absurd hsat ((searchOnNode_spec acs required).1 hres a hmem)
  | some a =>
    exact ⟨a, rfl, (searchOnNode_spec acs required).2 a hres⟩

/-- find? over an append whose first part misses. -/
theorem find?_append_of_none {α : Type} (p : α → Bool) (l1 l2 : List α)
    (h : l1.find? p = none) : (l1 ++ l2).find? p = l2.find? p := by
  induction l1 with
  | nil => simp
  | cons x xs ih =>
    cases hx : p x with
    | true =>
      rw [List.find?_cons_of_pos _ hx] at h
      cases h
    | false =>
      rw [List.find?_cons_of_neg _ (by simp [hx])] at h
      rw [List.cons_append, List.find?_cons_of_neg _ (by simp [hx])]
      exact ih h

/-- replaceVol leaves a record with the given name findable when the
replacement keeps that name. -/
theorem find?_replaceVol (l : List VolumeCR) (n : String) (v w : VolumeCR)
    (hv : v.name = n) (hfound : l.find? (fun x => x.name == n) = some w) :
    (replaceVol l n v).find? (fun x => x.name == n) = some v := by
  induction l with
  | nil => cases hfound
  | cons x xs ih =>
    unfold replaceVol
    by_cases hx : x.name = n
    · rw [if_pos (by simp [hx])]
      simp [List.find?, hv]
    · rw [if_neg (by simp [hx])]
      simp only [List.find?, beq_eq_false_iff_ne, ne_eq] at hfound ⊢
      rw [beq_false_of_ne hx] at hfound ⊢
      exact ih hfound

/-- replaceVol with a fresh name never drops records of other names. -/
theorem find?_replaceVol_other (l : List VolumeCR) (n m : String) (v : VolumeCR)
    (hnm : v.name = n) (hne : n ≠ m) :
    (replaceVol l n v).find? (fun x => x.name == m) = l.find? (fun x => x.name == m) := by
  induction l with
  | nil => rfl
  | cons x xs ih =>
    unfold replaceVol
    by_cases hx : x.name = n
    · rw [if_pos (by simp [hx])]
      have hxm : ¬ x.name = m := by rw [hx]; exact hne
      have hvm : ¬ v.name = m := by rw [hnm]; exact hne
      simp only [List.find?]
      rw [beq_false_of_ne hxm, beq_false_of_ne hvm]
    · rw [if_neg (by simp [hx])]
      by_cases hxm : x.name = m
      · simp [List.find?, hxm]
      · simp only [List.find?]
        rw [beq_false_of_ne hxm]
        exact ih

/-- Under distinct names, a list is a permutation of any member consed
onto the removal of that member's name. -/
theorem perm_removeAC (l : List ACRecord) (a : ACRecord)
    (hmem : a ∈ l) (hnd : (l.map ACRecord.name).Nodup) :
    l.Perm (a :: removeAC l a.name) := by
  induction l with
  | nil => cases hmem
  | cons x xs ih =>
    rw [List.map_cons, List.nodup_cons] at hnd
    by_cases hx : x.name = a.name
    · have hxa : x = a := by
        rcases List.mem_cons.mp hmem with h | h
        · exact h.symm
        · exact absurd (hx ▸ List.mem_map_of_mem ACRecord.name h) hnd.1
      subst hxa
      unfold removeAC
      rw [if_pos (by simp)]
    · have hmem2 : a ∈ xs := by
        rcases List.mem_cons.mp hmem with h | h
        · exact absurd (congrArg ACRecord.name h.symm) hx
        · exact h
      unfold removeAC
      rw [if_neg (by simp [hx])]
      exact ((ih hmem2 hnd.2).cons x).trans (List.Perm.swap a x _)

/-- After removing a name from a list with distinct names, no record of
that name remains. -/
theorem removeAC_no_name (l : List ACRecord) (n : String)
    (hnd : (l.map ACRecord.name).Nodup) :
    ∀ b ∈ removeAC l n, b.name ≠ n := by
  induction l with
  | nil => intro b hb; cases hb
  | cons x xs ih =>
    rw [List.map_cons, List.nodup_cons] at hnd
    intro b hb
    unfold removeAC at hb
    by_cases hx : x.name = n
    · rw [if_pos (by simp [hx])] at hb
      intro hbn
      exact hnd.1 (by rw [hx, ← hbn]; exact List.mem_map_of_mem ACRecord.name hb)
    · rw [if_neg (by simp [hx])] at hb
      rcases List.mem_cons.mp hb with h | h
      · rw [h]; exact hx
      · exact ih hnd.2 b h

/-- Inversion of the synchronous part of CreateVolume on a dispatched
outcome: the name was validated, no Volume record existed, the scheduler
chose the returned AvailableCapacity, the new Volume CR was appended, and
the chosen AvailableCapacity was deleted (unless that delete faulted). -/
theorem createVolumeSync_dispatched_inv
    (req : CreateVolumeRequest) (s : Store) (f : CreateFaults) (ac : ACRecord)
    (s2 : Store) (ev : List StoreOp)
    (h : createVolumeSync req s f = some (.dispatched ac, s2, ev)) :
    req.name ≠ "" ∧ req.hasCaps = true ∧
    findVolume s req.name = none ∧
    (∃ pn, preferredNodeOf req = some pn ∧
      searchAvailableCapacity (listACResult s f) pn req.requiredBytes = some ac) ∧
    s2.volumes = s.volumes ++ [mkVolumeCR req.name ac] ∧
    s2.acs = (if f.deleteACErr then s.acs else removeAC s.acs ac.name) := by
  by_cases h1 : req.name = ""
  · simp [createVolumeSync, h1] at h
  by_cases h2 : req.hasCaps = true
  swap
  · simp [createVolumeSync, h1, h2] at h
  by_cases h3 : f.readVolErr = true
  · simp [createVolumeSync, h1, h2, h3] at h
  cases hfv : findVolume s req.name with
  | some v => simp [createVolumeSync, h1, h2, h3, hfv] at h
  | none =>
  cases hpn : preferredNodeOf req with
  | none => simp [createVolumeSync, h1, h2, h3, hfv, hpn] at h
  | some pn =>
  cases hse : searchAvailableCapacity (listACResult s f) pn req.requiredBytes with
  | none => simp [createVolumeSync, h1, h2, h3, hfv, hpn, hse] at h
  | some ac2 =>
  by_cases h4 : f.createVolErr = true
  · simp [createVolumeSync, h1, h2, h3, hfv, hpn, hse, h4] at h
  by_cases h5 : f.deleteACErr = true
  · simp [createVolumeSync, h1, h2, h3, hfv, hpn, hse, h4, h5] at h
    obtain ⟨hac, hst, hev⟩ := h
    subst hac
    refine ⟨h1, h2, rfl, ⟨pn, rfl, hse⟩, ?_, ?_⟩
    · rw [← hst]
    · rw [← hst]
      simp [h5]
  · simp [createVolumeSync, h1, h2, h3, hfv, hpn, hse, h4, h5] at h
    obtain ⟨hac, hst, hev⟩ := h
    subst hac
    refine ⟨h1, h2, rfl, ⟨pn, rfl, hse⟩, ?_, ?_⟩
    · rw [← hst]
    · rw [← hst]
      simp [h5]

/-- A scheduler result is one of the listed AvailableCapacity records. -/
theorem searchAvailableCapacity_mem (items : List ACRecord) (pn : String) (r : Int)
    (ac : ACRecord) (h : searchAvailableCapacity (.ok items) pn r = some ac) :
    ac ∈ items := by
  simp only [searchAvailableCapacity] at h
  have hs := (searchOnNode_spec
    (acsOnNode items (if pn == "" then pickNode items else pn)) r).2 ac h
  exact List.mem_of_mem_filter hs.1

/-- Claim C5: for every CreateVolume request with an empty name or with
absent volume capabilities, the call fails with InvalidArgument and the
list of store operations performed is empty: no read or write of the
object store happens. -/
theorem c5_invalid_argument (req : CreateVolumeRequest) (s : Store) (f : CreateFaults)
    (h : req.name = "" ∨ req.hasCaps = false) :
    ∃ msg, createVolumeSync req s f =
      some (.rpcErr (.status .InvalidArgument msg), s, []) := by
  rcases h with h | h
  · exact ⟨"Volume name missing in request", by simp [createVolumeSync, h]⟩
  · by_cases h1 : req.name = ""
    · exact ⟨"Volume name missing in request", by simp [createVolumeSync, h1]⟩
    · exact ⟨"Volume capabilities missing in request", by simp [createVolumeSync, h1, h]⟩

/-- Witness for C5 at a concrete empty-name request. -/
theorem c5_invalid_argument_witness :
    ∃ msg, createVolumeSync
        { name := "", requiredBytes := 10, hasCaps := true, accReq := none }
        emptyStore noCreateFaults =
      some (.rpcErr (.status .InvalidArgument msg), emptyStore, []) :=
  c5_invalid_argument _ _ _ (Or.inl rfl)

/-- Claim C6: DeleteVolume on a volume_id with no Volume record returns
success, leaves the store unchanged, and performs only the one read. -/
theorem c6_delete_idempotent (req : DeleteVolumeRequest) (s : Store) (f : DeleteFaults)
    (agent : Except Unit DLVReply)
    (hid : req.volumeId ≠ "") (hf : f.readVolErr = false)
    (hnone : findVolume s req.volumeId = none) :
    deleteVolume req s f agent = (.ok (), s, [.readVol req.volumeId]) := by
  simp [deleteVolume, hid, hf, hnone]

/-- Witness for C6 at a concrete missing id. -/
theorem c6_delete_idempotent_witness :
    deleteVolume { volumeId := "vX" } emptyStore noDeleteFaults
        (.ok { ok := true, volume := none }) =
      (.ok (), emptyStore, [.readVol "vX"]) :=
  c6_delete_idempotent _ _ _ _ (by decide) rfl rfl

/-- Counterexample to claim C1 as stated: at a concrete DeleteVolume
request whose Volume read fails with a non-NotFound error, the call fails
with a plain error built by fmt.Errorf, which carries no gRPC status code
at all — in particular not Internal — while the store is unchanged. -/
theorem c1_counterexample :
    (deleteVolume { volumeId := "v1" } emptyStore
        { readVolErr := true, deleteVolErr := false, createACErr := false }
        (.ok { ok := true, volume := none })).1 =
      .error (.plain "unable to find volume with ID v1") ∧
    errHasCode (deleteVolume { volumeId := "v1" } emptyStore
        { readVolErr := true, deleteVolErr := false, createACErr := false }
        (.ok { ok := true, volume := none })).1 RpcCode.Internal = false ∧
    (deleteVolume { volumeId := "v1" } emptyStore
        { readVolErr := true, deleteVolErr := false, createACErr := false }
        (.ok { ok := true, volume := none })).2.1 = emptyStore := by
  exact ⟨rfl, rfl, rfl⟩

/-- Claim C1 amended: on a non-NotFound read error DeleteVolume fails
with a plain (non-status) error — so no Internal code — and performs no
store mutation (only the failed read). -/
theorem c1_plain_error_no_mutation (req : DeleteVolumeRequest) (s : Store)
    (f : DeleteFaults) (agent : Except Unit DLVReply)
    (hid : req.volumeId ≠ "") (hf : f.readVolErr = true) :
    deleteVolume req s f agent =
      (.error (.plain ("unable to find volume with ID " ++ req.volumeId)), s,
        [.readVol req.volumeId]) := by
  simp [deleteVolume, hid, hf]

/-- Witness for the amended C1 at a concrete request. -/
theorem c1_plain_error_no_mutation_witness :
    deleteVolume { volumeId := "v2" } emptyStore
        { readVolErr := true, deleteVolErr := false, createACErr := false }
        (.ok { ok := true, volume := none }) =
      (.error (.plain ("unable to find volume with ID " ++ "v2")), emptyStore,
        [.readVol "v2"]) :=
  c1_plain_error_no_mutation _ _ _ _ (by decide) rfl

/-- Claim C8: both writes of a Volume record by the controller — the
creation in CreateVolume and the update in changeVolumeStatus — leave the
status annotation equal to the textual name of the status enum. -/
theorem c8_status_text_mirror :
    (∀ (n : String) (ac : ACRecord),
      lookupStr (mkVolumeCR n ac).anns statusAnnKey =
        some (statusName (mkVolumeCR n ac).spec.status)) ∧
    (∀ (v : VolumeCR) (st : OperationalStatus),
      lookupStr (updateStatus v st).anns statusAnnKey =
        some (statusName (updateStatus v st).spec.status)) := by
  constructor
  · intro n ac
    rfl
  · intro v st
    simp [updateStatus, setAnn, lookupStr, List.find?]

/-- Claim C9: CreateVolume is not total — at a concrete request whose
accessibility requirements are present with an empty Preferred list it
panics (indexes Preferred[0] out of range, modelled as none) — and the
dereference is safe exactly under the precondition that requirements,
when present, contain at least one preferred entry. -/
theorem c9_panic_on_empty_preferred :
    createVolumeSync wPanicReq emptyStore noCreateFaults = none ∧
    ∀ (req : CreateVolumeRequest) (s : Store) (f : CreateFaults),
      (∀ t, req.accReq = some t → t.preferred ≠ []) →
      createVolumeSync req s f ≠ none := by
  constructor
  · rfl
  · intro req s f hpre h
    by_cases h1 : req.name = ""
    · simp [createVolumeSync, h1] at h
    by_cases h2 : req.hasCaps = true
    swap
    · simp [createVolumeSync, h1, h2] at h
    by_cases h3 : f.readVolErr = true
    · simp [createVolumeSync, h1, h2, h3] at h
    cases hfv : findVolume s req.name with
    | some v => simp [createVolumeSync, h1, h2, h3, hfv] at h
    | none =>
      cases hpn : preferredNodeOf req with
      | some pn =>
        cases hse : searchAvailableCapacity (listACResult s f) pn req.requiredBytes with
        | none => simp [createVolumeSync, h1, h2, h3, hfv, hpn, hse] at h
        | some ac =>
          by_cases h4 : f.createVolErr = true
          · simp [createVolumeSync, h1, h2, h3, hfv, hpn, hse, h4] at h
          by_cases h5 : f.deleteACErr = true
          · simp [createVolumeSync, h1, h2, h3, hfv, hpn, hse, h4, h5] at h
          · simp [createVolumeSync, h1, h2, h3, hfv, hpn, hse, h4, h5] at h
      | none =>
        cases hacc : req.accReq with
        | none => simp [preferredNodeOf, hacc] at hpn
        | some t =>
          cases hp : t.preferred with
          | cons seg rest => simp [preferredNodeOf, hacc, hp] at hpn
          | nil => exact hpre t hacc hp

/-- Witness for the safety half of C9 at a concrete request without
accessibility requirements. -/
theorem c9_panic_on_empty_preferred_witness :
    createVolumeSync wNoAccReq emptyStore noCreateFaults ≠ none :=
  c9_panic_on_empty_preferred.2 wNoAccReq emptyStore noCreateFaults
    (fun t ht => by cases ht)

/-- Claim C10: when listing AvailableCapacity records fails, the
scheduler returns none and CreateVolume fails with ResourceExhausted —
indistinguishable at the RPC boundary from genuine absence of capacity. -/
theorem c10_list_error_resource_exhausted
    (req : CreateVolumeRequest) (s : Store) (f : CreateFaults) (pn : String)
    (hname : req.name ≠ "") (hcaps : req.hasCaps = true)
    (hread : f.readVolErr = false) (hvol : findVolume s req.name = none)
    (hlist : f.listACErr = true) (hpn : preferredNodeOf req = some pn) :
    searchAvailableCapacity (listACResult s f) pn req.requiredBytes = none ∧
    createVolumeSync req s f =
      some (.rpcErr (.status .ResourceExhausted
        ("there is no suitable drive for request " ++ req.name)), s,
        [.readVol req.name, .listAC]) := by
  have hs : searchAvailableCapacity (listACResult s f) pn req.requiredBytes = none := by
    simp [searchAvailableCapacity, listACResult, hlist]
  refine ⟨hs, ?_⟩
  simp [createVolumeSync, hname, hcaps, hread, hvol, hpn, hs]

/-- Witness for C10 at a concrete request and failing list. -/
theorem c10_list_error_resource_exhausted_witness :
    searchAvailableCapacity
        (listACResult emptyStore
          { readVolErr := false, listACErr := true, createVolErr := false, deleteACErr := false })
        "n1" wReq.requiredBytes = none ∧
    createVolumeSync wReq emptyStore
        { readVolErr := false, listACErr := true, createVolErr := false, deleteACErr := false } =
      some (.rpcErr (.status .ResourceExhausted
        ("there is no suitable drive for request " ++ wReq.name)), emptyStore,
        [.readVol wReq.name, .listAC]) :=
  c10_list_error_resource_exhausted wReq emptyStore _ "n1"
    (by decide) rfl rfl rfl rfl rfl

/-- Counterexample to claim C2 as stated: on node n1 a single
AvailableCapacity of size MaxInt64 satisfies required = 1, yet the
scheduler returns none, because the best-fit loop's strict comparison
against the MaxInt64 sentinel can never admit it. -/
theorem c2_counterexample :
    (∃ a ∈ acsOnNode [cexAC] "n1", (1:Int) ≤ a.spec.size) ∧
    searchAvailableCapacity (.ok [cexAC]) "n1" 1 = none := by
  constructor
  · exact ⟨cexAC, by decide, by decide⟩
  · rfl

/-- Claim C2 amended: over the chosen node, whenever some
AvailableCapacity satisfies required ≤ size and additionally size <
MaxInt64, the scheduler returns a satisfying record of smallest size on
that node; and when no record on the node satisfies required ≤ size it
returns none. -/
theorem c2_best_fit (acs : List ACRecord) (n : String) (required : Int) (hn : n ≠ "") :
    ((∃ a ∈ acsOnNode acs n, required ≤ a.spec.size ∧ a.spec.size < maxInt64) →
      ∃ a, searchAvailableCapacity (.ok acs) n required = some a ∧
        a ∈ acsOnNode acs n ∧ required ≤ a.spec.size ∧
        ∀ b ∈ acsOnNode acs n, required ≤ b.spec.size → a.spec.size ≤ b.spec.size) ∧
    ((∀ a ∈ acsOnNode acs n, a.spec.size < required) →
      searchAvailableCapacity (.ok acs) n required = none) := by
  have hnode : searchAvailableCapacity (.ok acs) n required =
      searchOnNode (acsOnNode acs n) required := by
    simp [searchAvailableCapacity, hn]
  constructor
  · intro hex
    obtain ⟨a, hsome, hmem, hsat, hmin⟩ := searchOnNode_found _ _ hex
    exact ⟨a, hnode ▸ hsome, hmem, hsat, hmin⟩
  · intro hall
    rw [hnode]
    cases hres : searchOnNode (acsOnNode acs n) required with
    | none => rfl
    | some a =>
      have hspec := (searchOnNode_spec _ required).2 a hres
      exact absurd hspec.2.1 (not_le.mpr (hall a hspec.1))

/-- Witness for C2 at a concrete two-disk node: required 50 picks the
60-byte disk, not the 100-byte one. -/
theorem c2_best_fit_witness :
    ∃ a, searchAvailableCapacity (.ok wAcs) "n1" 50 = some a ∧
      a ∈ acsOnNode wAcs "n1" ∧ (50:Int) ≤ a.spec.size ∧
      ∀ b ∈ acsOnNode wAcs "n1", (50:Int) ≤ b.spec.size → a.spec.size ≤ b.spec.size :=
  (c2_best_fit wAcs "n1" 50 (by decide)).1
    ⟨wAC2, by decide, by decide, by decide⟩

/-- Claim C3: when CreateVolume finds no existing Volume record and the
scheduler returns an AvailableCapacity, the created Volume record has
status Creating, owner equal to that AvailableCapacity's node, location
equal to its location, and size equal to its size. -/
theorem c3_create_fields (req : CreateVolumeRequest) (s : Store) (f : CreateFaults)
    (ac : ACRecord) (s2 : Store) (ev : List StoreOp)
    (h : createVolumeSync req s f = some (.dispatched ac, s2, ev)) :
    ∃ v, findVolume s2 req.name = some v ∧
      v.spec.status = .Creating ∧ v.spec.owner = ac.spec.nodeId ∧
      v.spec.location = ac.spec.location ∧ v.spec.size = ac.spec.size ∧
      v.spec.id = req.name := by
  obtain ⟨hname, hcaps, hfv, hsch, hvols, hacs⟩ :=
    createVolumeSync_dispatched_inv req s f ac s2 ev h
  refine ⟨mkVolumeCR req.name ac, ?_, rfl, rfl, rfl, rfl, rfl⟩
  unfold findVolume
  rw [hvols, find?_append_of_none _ _ _ hfv]
  simp [List.find?, mkVolumeCR]

/-- Witness for C3 at a concrete request: the 60-byte disk is consumed
and the created record carries its size and location. -/
theorem c3_create_fields_witness :
    ∃ v, findVolume { volumes := [mkVolumeCR "v1" wAC2], acs := [wAC1] } "v1" = some v ∧
      v.spec.status = .Creating ∧ v.spec.owner = wAC2.spec.nodeId ∧
      v.spec.location = wAC2.spec.location ∧ v.spec.size = wAC2.spec.size ∧
      v.spec.id = "v1" :=
  c3_create_fields wReq wStore noCreateFaults wAC2
    { volumes := [mkVolumeCR "v1" wAC2], acs := [wAC1] }
    [.readVol "v1", .listAC, .createVol "v1", .delAC "n1-d2"] rfl

/-- Claim C4: the background task calls the owner node's agent with the
request name, the required bytes, the chosen location and storage class
hdd under the fixed 300-second timeout, and persists — via the
changeVolumeStatus path — status Created exactly when the agent call
returns without error and FailedToCreate on error or timeout. -/
theorem c4_background_task (req : CreateVolumeRequest) (ac : ACRecord)
    (agentRes : Except Unit Unit) (s : Store) (v : VolumeCR)
    (hv : findVolume s req.name = some v) :
    (createLocalVolume req ac agentRes s).1 =
      { node := ac.spec.nodeId, timeoutSec := 300
      , request := { pvcUUID := req.name, capacity := req.requiredBytes
                   , sc := "hdd", location := ac.spec.location } } ∧
    (createLocalVolume req ac agentRes s).2 =
      changeVolumeStatus s req.name (newStatusOf agentRes) ∧
    ∃ s2, (createLocalVolume req ac agentRes s).2 = .ok s2 ∧
      findVolume s2 req.name = some (updateStatus v (newStatusOf agentRes)) ∧
      ((updateStatus v (newStatusOf agentRes)).spec.status = .Created ↔
        agentRes = .ok ()) := by
  have hvn : v.name = req.name := by
    have := List.find?_some hv
    simpa using this
  refine ⟨rfl, rfl,
    { s with volumes := replaceVol s.volumes req.name (updateStatus v (newStatusOf agentRes)) },
    ?_, ?_, ?_⟩
  · show changeVolumeStatus s req.name (newStatusOf agentRes) = _
    unfold changeVolumeStatus
    rw [hv]
  · unfold findVolume
    exact find?_replaceVol s.volumes req.name _ v hvn hv
  · show newStatusOf agentRes = .Created ↔ agentRes = .ok ()
    cases agentRes with
    | ok u => cases u; simp [newStatusOf]
    | error e => cases e; simp [newStatusOf]

/-- Witness for C4 at a concrete store and a successful agent call. -/
theorem c4_background_task_witness :
    (createLocalVolume wReq wAC2 (.ok ()) wVolStore).1 =
      { node := wAC2.spec.nodeId, timeoutSec := 300
      , request := { pvcUUID := wReq.name, capacity := wReq.requiredBytes
                   , sc := "hdd", location := wAC2.spec.location } } ∧
    (createLocalVolume wReq wAC2 (.ok ()) wVolStore).2 =
      changeVolumeStatus wVolStore wReq.name (newStatusOf (.ok ())) ∧
    ∃ s2, (createLocalVolume wReq wAC2 (.ok ()) wVolStore).2 = .ok s2 ∧
      findVolume s2 wReq.name =
        some (updateStatus (mkVolumeCR "v1" wAC2) (newStatusOf (.ok ()))) ∧
      ((updateStatus (mkVolumeCR "v1" wAC2) (newStatusOf (.ok ()))).spec.status = .Created ↔
        (Except.ok () : Except Unit Unit) = .ok ()) :=
  c4_background_task wReq wAC2 (.ok ()) wVolStore (mkVolumeCR "v1" wAC2) rfl


/-- Claim C7: a successful CreateVolume (store effects: Volume appended,
chosen AvailableCapacity deleted, then status set to Created) followed by
a successful DeleteVolume of the same name restores the AvailableCapacity
set — as (key, size) pairs — to a permutation of the initial one, given
the keyed-store invariants (distinct AC keys following the
node + "-" + lowercase(location) convention) and the precondition that
the agent's DeleteLocalVolume reply carries the reserved disk's size and
location. -/
theorem c7_round_trip (req : CreateVolumeRequest) (s0 s1 s2 : Store)
    (ac : ACRecord) (ev : List StoreOp)
    (hnd : (s0.acs.map ACRecord.name).Nodup)
    (hkey : ∀ a ∈ s0.acs, a.name = a.spec.nodeId ++ "-" ++ lowerStr a.spec.location)
    (hcreate : createVolumeSync req s0 noCreateFaults = some (.dispatched ac, s1, ev))
    (hstatus : changeVolumeStatus s1 req.name .Created = .ok s2) :
    (deleteVolume { volumeId := req.name } s2 noDeleteFaults
        (.ok { ok := true
             , volume := some { size := ac.spec.size, location := ac.spec.location } })).1
      = .ok () ∧
    ((deleteVolume { volumeId := req.name } s2 noDeleteFaults
        (.ok { ok := true
             , volume := some { size := ac.spec.size, location := ac.spec.location } })).2.1.acs.map
      (fun a => (a.name, a.spec.size))).Perm
      (s0.acs.map (fun a => (a.name, a.spec.size))) := by
  obtain ⟨hname, hcaps, hfv, ⟨pn, hpn, hse⟩, hvols, hacs⟩ :=
    createVolumeSync_dispatched_inv req s0 noCreateFaults ac s1 ev hcreate
  have hacs1 : s1.acs = removeAC s0.acs ac.name := by
    simpa [noCreateFaults] using hacs
  have hse2 : searchAvailableCapacity (.ok s0.acs) pn req.requiredBytes = some ac := by
    simpa [listACResult, noCreateFaults] using hse
  have hmem : ac ∈ s0.acs := searchAvailableCapacity_mem _ _ _ _ hse2
  have hackey : ac.name = ac.spec.nodeId ++ "-" ++ lowerStr ac.spec.location := hkey ac hmem
  have hfv2 : s0.volumes.find? (fun v => v.name == req.name) = none := hfv
  have hfind1 : findVolume s1 req.name = some (mkVolumeCR req.name ac) := by
    unfold findVolume
    rw [hvols, find?_append_of_none _ _ _ hfv2]
    simp [List.find?, mkVolumeCR]
  have hs2 : s2 =
      { s1 with volumes := (replaceVol s1.volumes req.name
          (updateStatus (mkVolumeCR req.name ac) .Created)) } := by
    have h := hstatus
    simp only [changeVolumeStatus, hfind1, Except.ok.injEq] at h
    exact h.symm
  subst hs2
  have hfind2 : findVolume
      { s1 with volumes := (replaceVol s1.volumes req.name
          (updateStatus (mkVolumeCR req.name ac) .Created)) } req.name =
      some (updateStatus (mkVolumeCR req.name ac) .Created) :=
    find?_replaceVol s1.volumes req.name _ (mkVolumeCR req.name ac) rfl hfind1
  have howner : (updateStatus (mkVolumeCR req.name ac) .Created).spec.owner =
      ac.spec.nodeId := rfl
  have hdel : deleteVolume { volumeId := req.name }
      { s1 with volumes := (replaceVol s1.volumes req.name
          (updateStatus (mkVolumeCR req.name ac) .Created)) }
      noDeleteFaults
      (.ok { ok := true
           , volume := some { size := ac.spec.size, location := ac.spec.location } }) =
      (.ok (),
       { volumes := (removeVol (replaceVol s1.volumes req.name
           (updateStatus (mkVolumeCR req.name ac) .Created)) req.name)
       , acs := createCRAC s1.acs (reclaimedAC ac) },
       [.readVol req.name, .delVol req.name, .createAC (reclaimedAC ac).name]) := by
    simp [deleteVolume, hname, hfind2, noDeleteFaults, reclaimedAC, howner]
  refine ⟨by rw [hdel], ?_⟩
  rw [hdel]
  show ((createCRAC s1.acs (reclaimedAC ac)).map _).Perm _
  rw [hacs1]
  have hnone2 := removeAC_no_name s0.acs ac.name hnd
  have hany : (removeAC s0.acs ac.name).any
      (fun a => a.name == (reclaimedAC ac).name) = false := by
    rw [List.any_eq_false]
    intro x hx
    show ¬ (x.name == ac.spec.nodeId ++ "-" ++ lowerStr ac.spec.location) = true
    rw [← hackey]
    simpa using hnone2 x hx
  simp only [createCRAC, hany, Bool.false_eq_true, if_false]
  rw [List.map_append]
  have hperm0 := (perm_removeAC s0.acs ac hmem hnd).map
    (fun a => (a.name, a.spec.size))
  simp only [List.map_cons] at hperm0
  have hsingle : ([reclaimedAC ac]).map (fun a => (a.name, a.spec.size)) =
      [(ac.name, ac.spec.size)] := by
    simp [reclaimedAC, ← hackey]
  rw [hsingle]
  exact (List.perm_append_singleton _ _).trans hperm0.symm

/-- Witness for C7 at a concrete round trip: create v1 on the 60-byte
disk of node n1, set it Created, delete it; the AC set (by key and size)
returns to the initial two-disk set. -/
theorem c7_round_trip_witness :
    (deleteVolume { volumeId := wReq.name }
        { volumes := [updateStatus (mkVolumeCR "v1" wAC2) .Created], acs := [wAC1] }
        noDeleteFaults
        (.ok { ok := true
             , volume := some { size := wAC2.spec.size, location := wAC2.spec.location } })).1
      = .ok () ∧
    ((deleteVolume { volumeId := wReq.name }
        { volumes := [updateStatus (mkVolumeCR "v1" wAC2) .Created], acs := [wAC1] }
        noDeleteFaults
        (.ok { ok := true
             , volume := some { size := wAC2.spec.size, location := wAC2.spec.location } })).2.1.acs.map
      (fun a => (a.name, a.spec.size))).Perm
      (wStore.acs.map (fun a => (a.name, a.spec.size))) :=
  c7_round_trip wReq wStore
    { volumes := [mkVolumeCR "v1" wAC2], acs := [wAC1] }
    { volumes := [updateStatus (mkVolumeCR "v1" wAC2) .Created], acs := [wAC1] }
    wAC2 [.readVol "v1", .listAC, .createVol "v1", .delAC "n1-d2"]
    (by decide) (by decide) rfl rfl
